import Mathlib

/-!
Verification of the storage/upload pipeline of the tumlinson-electric-poc
service. The Python source is shallowly embedded: pure helpers become Lean
functions, the stateful storage backends become functions over explicit
lists of objects / directory entries, and the async orchestration (which is
sequential per batch, with `asyncio.gather` preserving task order) becomes
ordinary recursion producing the ordered list of WebSocket events.

Machine integers are modelled as `Nat`; Python `int(x)` applied to a
non-negative float quotient `(a / b) * c` is modelled as exact floor
division `a * c / b` on `Nat`.
-/

namespace Tumlinson

/-! ## Python string primitives (`str.split('/')`, `'/'.join`, `str.strip`) -/

/-- Character-level embedding of Python `s.split('/')`: accumulates the
current segment (reversed) and cuts at every slash. -/
def pySplitChars (cur : List Char) : List Char → List (List Char)
  | [] => [cur.reverse]
  | c :: rest =>
    if c = '/' then cur.reverse :: pySplitChars [] rest
    else pySplitChars (c :: cur) rest

/-- Embedding of Python `s.split('/')`. -/
def pySplit (s : String) : List String :=
  (pySplitChars [] s.toList).map String.mk

/-- Character-level embedding of Python `'/'.join(parts)`. -/
def pyJoinChars : List (List Char) → List Char
  | [] => []
  | [p] => p
  | p :: q :: rest => p ++ '/' :: pyJoinChars (q :: rest)

/-- Embedding of Python `'/'.join(parts)`. -/
def pyJoin (l : List String) : String :=
  String.mk (pyJoinChars (l.map String.toList))

/-- Python `s.split('/')[-1]` (`split` never returns an empty list, so the
default is never used). -/
def lastSeg (s : String) : String :=
  (pySplit s).getLastD ""

/-- Python `s.strip(c)` for a single strip character. -/
def stripChar (c : Char) (l : List Char) : List Char :=
  ((l.dropWhile (· = c)).reverse.dropWhile (· = c)).reverse

/-- Source `app/utils/path_utils.py`, `normalize_path`: replace backslashes with
slashes and strip leading/trailing slashes; empty input maps to empty. -/
def normalize_path (path : String) : String :=
  if path = "" then ""
  else String.mk (stripChar '/' (path.toList.map fun c => if c = '\\' then '/' else c))

/-! ## Slug generation (`app/utils/path_utils.py`, `generate_slug`) -/

/-- Python regex class `\s` (ASCII range, as used by the repository). -/
def pyIsSpace (c : Char) : Bool :=
  c = ' ' || c = '\t' || c = '\n' || c = '\r' || c = '\x0b' || c = '\x0c'

/-- Python regex class `\w`. -/
def pyIsWord (c : Char) : Bool :=
  c.isAlphanum || c = '_'

/-- Embedding of `re.sub(r'[-\s]+', '-', text)`: every run of dashes and
whitespace collapses to a single dash; the flag records being inside such
a run. -/
def slugCollapseGo (inRun : Bool) : List Char → List Char
  | [] => []
  | c :: rest =>
    if pyIsSpace c || c = '-' then
      if inRun then slugCollapseGo true rest else '-' :: slugCollapseGo true rest
    else c :: slugCollapseGo false rest

def slugCollapse (l : List Char) : List Char :=
  slugCollapseGo false l

/-- Embedding of Python `str.lower()` (ASCII range). -/
def pyToLower (s : String) : String :=
  String.mk (s.toList.map Char.toLower)

/-- Embedding of Python `s.startswith(pre)`. -/
def pyStartsWith (s pre : String) : Bool :=
  pre.toList.isPrefixOf s.toList

/-- Embedding of Python `s.endswith(post)`. -/
def pyEndsWith (s post : String) : Bool :=
  post.toList.reverse.isPrefixOf s.toList.reverse

/-- Source `generate_slug`: lowercase, drop characters outside `[\w\s-]`, collapse
dash/space runs to a single dash, strip dashes at both ends. -/
def generate_slug (text : String) : String :=
  let lowered := (pyToLower text).toList
  let kept := lowered.filter fun c => pyIsWord c || pyIsSpace c || c = '-'
  String.mk (stripChar '-' (slugCollapse kept))

/-! ## `pathlib.Path.stem` / `.suffix` on a path's final component -/

/-- Index of the last dot in a name, if any. -/
def lastDotIdx (l : List Char) : Option Nat :=
  (List.range l.length).foldl
    (fun acc i => if l.getD i ' ' = '.' then some i else acc) none

/-- Python `Path(key).stem`: final path component without its last suffix;
a dot at position 0 or at the very end does not start a suffix. -/
def pyStem (key : String) : String :=
  let name := (lastSeg key).toList
  match lastDotIdx name with
  | none => String.mk name
  | some i => if 0 < i ∧ i < name.length - 1 then String.mk (name.take i) else String.mk name

/-- Python `Path(name).suffix` (used to re-attach the extension to slugs). -/
def pySuffix (key : String) : String :=
  let name := (lastSeg key).toList
  match lastDotIdx name with
  | none => ""
  | some i => if 0 < i ∧ i < name.length - 1 then String.mk (name.drop i) else ""

/-! ## Configuration (`app/core/config.py`) -/

def ROOT_INVITES : String := "accepted_invites"

def ROOT_PROCESSED : String := "accepted_processed"

/-- Source `Settings.folder_structure_template`: the fixed template provisioned
under `accepted_processed/<project>`. -/
def folder_structure_template : List String :=
  ["",
   "0 ITB\x27s & Plan Link",
   "1 Bid Docs",
   "1 Bid Docs/01 - Bid",
   "1 Bid Docs/01 - Bid/00-TE Extracted Drawings",
   "1 Bid Docs/01 - Bid/00-TE Extracted Drawings/00 LC Drawings",
   "1 Bid Docs/01 - Bid/01-TE Extracted Specifications",
   "2 Electrical",
   "3 Telecomm",
   "4 NDA"]

/-! ## WebSocket events (`app/services/websocket_manager.py`)

Only the event kind and the progress percentage are modelled; the human
readable message strings carry no information any claim depends on. Each
emission site in the source gets its own tag. -/

inductive EvTag
  | initial
  | batchStart
  | batchUploading
  | perFile
  | summary
  | hookStart
  | provision
  | provisionFinal
  deriving DecidableEq, Repr

inductive Event
  | progress (tag : EvTag) (percent : Nat)
  | complete
  | error
  deriving DecidableEq, Repr

/-! ## Storage backends (`app/services/storage_service.py`)

The S3 bucket is modelled as the ordered list of its objects; the local
disk as explicit lists of file paths and directory paths (relative to the
base path, slash separated). `fastapi.HTTPException` carries a status code
and a detail string; Python `str(HTTPException(...))` renders
`"{status_code}: {detail}"`. Network-level `ClientError`s (which both
backends turn into 500s) are outside the model: the modelled bucket is
reachable. -/

structure HTTPException where
  status_code : Nat
  detail : String
  deriving DecidableEq, Repr

/-- Starlette renders `str(HTTPException(s, d))` as `"s: d"`. -/
def httpStr (e : HTTPException) : String :=
  toString e.status_code ++ ": " ++ e.detail

structure S3Object where
  key : String
  size : Nat
  lastModified : String
  /-- the `slug` entry of the object's user metadata, when present -/
  slugMeta : Option String
  deriving DecidableEq, Repr

structure LocalFS where
  files : List String
  dirs : List String
  deriving DecidableEq, Repr

/-- The dict returned by `upload_file` on either backend. -/
structure StoredInfo where
  filename : String
  path : String
  slug : String
  folder : String
  storage : String
  deriving DecidableEq, Repr

/-- Source `S3StorageService.upload_file` (lines 59-89): the returned record.
The slug re-attaches the original extension to the slugged stem; the key
joins the normalized folder path with the (already stripped) filename. -/
def s3_upload_file (filename folder_path : String) : StoredInfo :=
  let fp := normalize_path folder_path
  let file_slug := generate_slug (pyStem filename) ++ pySuffix filename
  let s3_key := if fp = "" then filename else fp ++ "/" ++ filename
  { filename := filename
    path := s3_key
    slug := file_slug
    folder := if fp = "" then "/" else fp
    storage := "s3" }

/-- Source `S3StorageService.delete_file` (lines 91-100): `delete_object` is
unconditional, deleting an absent key succeeds. -/
def s3_delete_file (objects : List S3Object) (file_path : String) : List S3Object :=
  let fp := normalize_path file_path
  objects.filter fun o => o.key ≠ fp

/-- Source `S3StorageService.delete_folder` (lines 102-114): lists the prefix
`path/`; when the listing is empty (`'Contents' not in response`) the
delete call is skipped and the method returns normally. -/
def s3_delete_folder (objects : List S3Object) (folder_path : String) :
    Except HTTPException (List S3Object) :=
  let fp := normalize_path folder_path
  let contents := objects.filter fun o => pyStartsWith o.key (fp ++ "/")
  if contents.isEmpty then
    .ok objects
  else
    .ok (objects.filter fun o => !(pyStartsWith o.key (fp ++ "/")))

/-- Source `S3StorageService.create_folder` (lines 116-125): puts a zero-byte
marker object at `path/` (overwriting any existing marker). -/
def s3_create_folder (objects : List S3Object) (folder_path : String) : List S3Object :=
  let fp := normalize_path folder_path
  let key := fp ++ "/"
  (objects.filter fun o => o.key ≠ key) ++ [{ key := key, size := 0, lastModified := "", slugMeta := none }]

/-- Source `LocalStorageService.delete_file` (lines 232-244): the 404 raised for
an absent file is itself caught by the blanket `except Exception`, which
re-raises a 500 wrapping `str(e)`. -/
def local_delete_file (fs : LocalFS) (file_path : String) : Except HTTPException LocalFS :=
  let fp := normalize_path file_path
  let body : Except HTTPException LocalFS :=
    if fs.files.contains fp then
      .ok { fs with files := fs.files.filter fun p => p ≠ fp }
    else
      .error { status_code := 404, detail := "File not found" }
  match body with
  | .ok fs2 => .ok fs2
  | .error e => .error { status_code := 500, detail := "Error deleting file: " ++ httpStr e }

/-- Source `LocalStorageService.delete_folder` (lines 246-259): same wrapping of
the inner 404 by the blanket handler; `shutil.rmtree` removes the
directory and everything below it. -/
def local_delete_folder (fs : LocalFS) (folder_path : String) : Except HTTPException LocalFS :=
  let fp := normalize_path folder_path
  let body : Except HTTPException LocalFS :=
    if fs.dirs.contains fp then
      .ok { files := fs.files.filter fun p => !(pyStartsWith p (fp ++ "/"))
            dirs := fs.dirs.filter fun p => p ≠ fp && !(pyStartsWith p (fp ++ "/")) }
    else
      .error { status_code := 404, detail := "Folder not found" }
  match body with
  | .ok fs2 => .ok fs2
  | .error e => .error { status_code := 500, detail := "Error deleting folder: " ++ httpStr e }

/-- Source `LocalStorageService.create_folder` (lines 261-266): `mkdir(parents
= True, exist_ok = True)` — also materializes missing ancestors. -/
def local_create_folder (fs : LocalFS) (folder_path : String) : LocalFS :=
  let fp := normalize_path folder_path
  let parts := pySplit fp
  let ancestors := (List.range parts.length).map fun i => pyJoin (parts.take (i + 1))
  { fs with dirs := fs.dirs ++ ancestors.filter fun d => !fs.dirs.contains d }

/-! ## Listing (`S3StorageService.list_objects`, lines 127-189) -/

inductive ItemKind
  | file
  | folder
  deriving DecidableEq, Repr

/-- An entry of the `items` list built by `list_objects`; folder entries
carry no `folder` field, hence the `Option`. -/
structure StorageItem where
  path : String
  name : String
  slug : String
  kind : ItemKind
  folder : Option String
  size : Nat
  lastModified : String
  deriving DecidableEq, Repr

structure S3ListResult where
  items : List StorageItem
  folders_set : Finset String
  deriving DecidableEq

/-- Python `key.rstrip('/')`. -/
def rstripSlash (s : String) : String :=
  String.mk (s.toList.reverse.dropWhile (· = '/')).reverse

/-- Processing of one bucket object inside the `list_objects` loop. The
slug comes from the object's metadata when `head_object` yields one, and
falls back to `generate_slug(Path(key).stem)` otherwise. -/
def s3_list_step (acc : S3ListResult) (obj : S3Object) : S3ListResult :=
  let key := obj.key
  let slug := obj.slugMeta.getD (generate_slug (pyStem key))
  if pyEndsWith key "/" then
    let folder_path := rstripSlash key
    { items := acc.items ++
        [{ path := folder_path, name := lastSeg folder_path, slug := slug, kind := .folder,
           folder := none, size := 0, lastModified := obj.lastModified }]
      folders_set := insert folder_path acc.folders_set }
  else
    let file_parts := pySplit key
    let file_name := file_parts.getLastD ""
    let folder_path := if 1 < file_parts.length then pyJoin file_parts.dropLast else ""
    let fset :=
      if folder_path ≠ "" then
        let parts := pySplit folder_path
        (List.range parts.length).foldl
          (fun s i => insert (pyJoin (parts.take (i + 1))) s) acc.folders_set
      else acc.folders_set
    { items := acc.items ++
        [{ path := key, name := file_name, slug := slug, kind := .file,
           folder := some (if folder_path = "" then "/" else folder_path),
           size := obj.size, lastModified := obj.lastModified }]
      folders_set := fset }

/-- Source `S3StorageService.list_objects`: walk the bucket contents in
order, emitting folder entries for marker keys and file entries otherwise,
and collecting every segment prefix of each file's folder path into
`folders_set`. -/
def s3_list_objects (objects : List S3Object) : S3ListResult :=
  objects.foldl s3_list_step { items := [], folders_set := ∅ }

/-! ## Listing cache (`app/services/cache_service.py`) -/

/-- Redis keyspace, modelled as an association list. -/
abbrev Cache := List (String × String)

def cacheDelete (c : Cache) (k : String) : Cache :=
  List.filter (fun e => e.1 ≠ k) c

/-- Source `CacheService._get_cache_key`: `s3:list:{bucket}` for the whole
backend, `s3:list:{bucket}:{path}` for a (future, unused) per-path key; an
empty path is falsy in Python and yields the whole-backend key. -/
def cache_key (bucket : String) (path : Option String) : String :=
  match path with
  | some p => if p ≠ "" then "s3:list:" ++ bucket ++ ":" ++ p else "s3:list:" ++ bucket
  | none => "s3:list:" ++ bucket

/-- Source `CacheService.invalidate_list_cache` (lines 123-147): always
deletes the whole-backend key, and additionally the per-path key plus
every ancestor-path key when a path is given. -/
def invalidate_list_cache (bucket : String) (path : Option String) (c : Cache) : Cache :=
  let c1 := cacheDelete c (cache_key bucket none)
  match path with
  | none => c1
  | some p =>
    if p = "" then c1
    else
      let c2 := cacheDelete c1 (cache_key bucket (some p))
      let parts := pySplit p
      (List.range parts.length).foldl
        (fun acc i => cacheDelete acc (cache_key bucket (some (pyJoin (parts.take (i + 1)))))) c2

/-! ## HTTP routes touching storage and cache

State visible to the relevant routes in S3 mode: the bucket contents plus
the Redis keyspace. -/

structure AppState where
  objects : List S3Object
  cache : Cache

/-- Source `app/routers/files.py`, `delete_file` (lines 74-83): calls
`storage.delete_file` and returns a confirmation message. No cache call
appears anywhere in the route. -/
def route_delete_file (st : AppState) (file_path : String) : AppState × String :=
  ({ st with objects := s3_delete_file st.objects file_path },
   "File \x27" ++ file_path ++ "\x27 deleted successfully")

/-- Source `app/routers/structure.py`, `get_structure` (line 30): the
listing route reads `storage.list_objects()` directly; the cache service
is never consulted. -/
def route_structure_listing (st : AppState) : S3ListResult :=
  s3_list_objects st.objects

/-! ## Upload orchestration (`app/services/file_service.py`)

The uploads inside one batch run under `asyncio.gather`, which returns
results in task order; the per-result loop then processes them in input
order, so the whole pipeline is sequential in the model. The storage
backend is a parameter `put` (filename, folder path ↦ stored record), and
the environment's verdict on each write (does `storage.upload_file`
raise?) travels with the file. -/

/-- One incoming `UploadFile`: its original (possibly nested) filename and
whether its storage write succeeds; `err` is `str(e)` when it does not. -/
structure UFile where
  filename : String
  ok : Bool
  err : String
  deriving DecidableEq, Repr

/-- An entry of the `errors` list: `{"file": ..., "error": ...}`. -/
structure ErrInfo where
  file : String
  error : String
  deriving DecidableEq, Repr

inductive UploadOutcome
  | success (data : StoredInfo) (actual : String)
  | failure (data : ErrInfo) (actual : String)
  deriving DecidableEq, Repr

/-- Source `upload_single_file` (lines 65-80): strip the filename to its
final `/`-segment, overwrite `file.filename`, upload; an exception yields
an error record with the (already stripped) filename. -/
def upload_single_file (put : String → String → StoredInfo) (f : UFile)
    (folder_path : String) : UploadOutcome :=
  let actual := lastSeg f.filename
  if f.ok then .success (put actual folder_path) actual
  else .failure { file := actual, error := f.err } actual

/-- Embedding of `for batch_start in range(0, len(files), BATCH_SIZE)`
with `BATCH_SIZE = 5`: slices of five, last one possibly shorter. -/
def toBatches : List α → List (List α)
  | a :: b :: c :: d :: e :: f :: rest => [a, b, c, d, e] :: toBatches (f :: rest)
  | [] => []
  | l => [l]

/-- Percent of the batch-start event (line 91-93): floored batch share of
85, forced to 1 for the very first batch when it would be 0. -/
def batchStartPercent (n bs : Nat) : Nat :=
  let p := bs * 85 / n
  if p = 0 ∧ bs = 0 then 1 else p

/-- Percent of the speculative pre-batch uploading event (lines 114-119):
batch share plus five, clamped to 80, floored at 2. -/
def batchUploadingPercent (n bs : Nat) : Nat :=
  max 2 (min (bs * 85 / n + 5) (85 - 5))

/-- Percent emitted after a file settles (lines 134 and 149): completed
share of 85, floored at 2; identical formula on success and failure. -/
def filePercent (n completed : Nat) : Nat :=
  max 2 (completed * 85 / n)

/-- The batch loop of `upload_multiple_files` (lines 83-156), over the
precomputed batch slices, carrying the running offset `bs` (which equals
both `batch_start` and the completed-count at batch entry, since every
settled file increments the count). -/
def uploadBatchesGo (put : String → String → StoredInfo) (n : Nat) (client : Bool)
    (paths : List String) : List (List UFile) → Nat → List StoredInfo × List ErrInfo × List Event
  | [], _ => ([], [], [])
  | batch :: rest, bs =>
    let startEvs :=
      (if client then [Event.progress .batchStart (batchStartPercent n bs)] else []) ++
      (if client ∧ batch ≠ [] then [Event.progress .batchUploading (batchUploadingPercent n bs)] else [])
    let outcomes := (batch.enumFrom bs).map fun p =>
      upload_single_file put p.2 (paths.getD p.1 "")
    let resultsB := outcomes.filterMap fun o =>
      match o with | .success d _ => some d | .failure _ _ => none
    let errorsB := outcomes.filterMap fun o =>
      match o with | .failure d _ => some d | .success _ _ => none
    let fileEvs :=
      if client then (List.range outcomes.length).map fun j => Event.progress .perFile (filePercent n (bs + j + 1))
      else []
    let next := uploadBatchesGo put n client paths rest (bs + batch.length)
    (resultsB ++ next.1, errorsB ++ next.2.1, startEvs ++ fileEvs ++ next.2.2)

/-- The dict returned by `upload_multiple_files` (lines 170-175). -/
structure UploadResult where
  success : Nat
  failed : Nat
  results : List StoredInfo
  errors : List ErrInfo
  deriving DecidableEq, Repr

/-- Source `FileService.upload_multiple_files` (lines 22-175): initial 1%
event, the batch loop, and the closing 85% summary event, together with
the success/failure aggregation. -/
def upload_multiple_files (put : String → String → StoredInfo) (files : List UFile)
    (paths : List String) (client : Bool) : UploadResult × List Event :=
  let n := files.length
  let go := uploadBatchesGo put n client paths (toBatches files) 0
  ({ success := go.1.length, failed := go.2.1.length, results := go.1, errors := go.2.1 },
   (if client then [Event.progress .initial 1] else []) ++ go.2.2 ++
   (if client then [Event.progress .summary 85] else []))

/-! ## Folder provisioning (`app/services/folder_service.py`)

The environment's verdict on each `storage.create_folder` call is a
predicate on the folder index; a raising call aborts the loop and the
exception is re-raised to the caller. -/

/-- Source lines 40-46: the absolute folder list for a project. -/
def folders_to_create (project_name : String) : List String :=
  let processed_root := ROOT_PROCESSED ++ "/" ++ project_name
  folder_structure_template.map fun t =>
    if t = "" then processed_root else processed_root ++ "/" ++ t

/-- The `for idx, folder_path in enumerate(folders_to_create)` loop
(lines 54-71): progress event before each creation; a failing creation
stops the loop with the events emitted so far. -/
def createFoldersGo (client : Bool) (sp prange n : Nat) (ok : Nat → Bool) :
    Nat → List String → List Event × Bool
  | _, [] => ([], true)
  | idx, _ :: rest =>
    let ev := if client then [Event.progress .provision (sp + idx * prange / n)] else []
    if ok idx then
      let next := createFoldersGo client sp prange n ok (idx + 1) rest
      (ev ++ next.1, next.2)
    else (ev, false)

/-- Source `FolderService.create_processed_folder_structure` (lines
17-84): sequential creation with progress in `[start_progress,
end_progress]`, a final event at exactly `end_progress` on success, and
re-raising of any creation failure. -/
def create_processed_folder_structure (project_name : String) (client : Bool)
    (start_progress end_progress : Nat) (ok : Nat → Bool) : List Event × Bool :=
  let fl := folders_to_create project_name
  let prange := end_progress - start_progress
  let go := createFoldersGo client start_progress prange fl.length ok 0 fl
  if go.2 then
    (go.1 ++ (if client then [Event.progress .provisionFinal end_progress] else []), true)
  else go

/-- Source `FileService.on_folder_uploaded` (lines 177-229): inspect the
first stored path; under the intake root, emit 86%, provision with range
86-100, then a Complete event; any provisioning failure is caught and
reported as an Error event. -/
def on_folder_uploaded (file_paths : List String) (client : Bool) (ok : Nat → Bool) :
    List Event :=
  match file_paths with
  | [] => []
  | fp :: _ =>
    let parts := pySplit (normalize_path fp)
    if 2 ≤ parts.length ∧ parts.getD 0 "" = ROOT_INVITES then
      let project_name := parts.getD 1 ""
      let pre := if client then [Event.progress .hookStart 86] else []
      let prov := create_processed_folder_structure project_name client 86 100 ok
      if prov.2 then pre ++ prov.1 ++ (if client then [Event.complete] else [])
      else pre ++ prov.1 ++ (if client then [Event.error] else [])
    else []

/-- Source `app/routers/files.py`, `upload_multiple_files` route (lines
26-71) plus its background task: the upload call followed — when some
upload succeeded and the first input path has a nonempty root segment —
by `on_folder_uploaded` over the stored paths of the successes. All
events reach the same channel in this order. -/
def fullUploadFlow (put : String → String → StoredInfo) (files : List UFile)
    (paths : List String) (client : Bool) (ok : Nat → Bool) : UploadResult × List Event :=
  let up := upload_multiple_files put files paths client
  let hookEvs :=
    if 0 < up.1.success then
      let first_path := if paths ≠ [] then normalize_path (paths.getD 0 "") else ""
      let parts := if first_path ≠ "" then pySplit first_path else []
      let root_folder := parts.getD 0 ""
      if root_folder ≠ "" then on_folder_uploaded (up.1.results.map (·.path)) client ok
      else []
    else []
  (up.1, up.2 ++ hookEvs)

/-! ## Views of the event stream and spec-side formulas -/

/-- All progress percentages of an event stream, in emission order. -/
def progressPercents (evs : List Event) : List Nat :=
  evs.filterMap fun e =>
    match e with
    | .progress _ p => some p
    | _ => none

/-- Percentages of the per-file progress events only. -/
def perFilePercents (evs : List Event) : List Nat :=
  evs.filterMap fun e =>
    match e with
    | .progress .perFile p => some p
    | _ => none

/-- Progress percentages with the batch-start and speculative pre-batch
uploading events removed. -/
def corePercents (evs : List Event) : List Nat :=
  evs.filterMap fun e =>
    match e with
    | .progress .batchStart _ => none
    | .progress .batchUploading _ => none
    | .progress _ p => some p
    | _ => none

/-- Formula taken from the claim's words for C4 (round to NEAREST):
`max(2, round(completedCount / totalFiles * 85))`, with rounding half up,
written as `(2 * a + b) / (2 * b)` for the nearest integer to `a / b`.
The code uses `int`, which truncates. -/
def claimedRoundPercent (n completed : Nat) : Nat :=
  max 2 ((2 * (completed * 85) + n) / (2 * n))

/-- The successes a batch upload should produce: one entry per `ok` file,
in input order, holding the backend record for the stripped filename and
that file's destination path. -/
def expectedSuccesses (put : String → String → StoredInfo) (paths : List String)
    (off : Nat) (files : List UFile) : List StoredInfo :=
  (files.enumFrom off).filterMap fun p =>
    if p.2.ok then some (put (lastSeg p.2.filename) (paths.getD p.1 "")) else none

/-- The failures a batch upload should produce: one entry per failing
file, in input order, naming the stripped filename. -/
def expectedFailures (files : List UFile) : List ErrInfo :=
  files.filterMap fun f =>
    if f.ok then none else some { file := lastSeg f.filename, error := f.err }

/-! ## Structure of the batch loop -/

theorem toBatches_flatten : ∀ (l : List α), (toBatches l).flatten = l
  | _ :: _ :: _ :: _ :: _ :: f :: rest => by
    have ih := toBatches_flatten (f :: rest)
    simp [toBatches, ih]
  | [] => by simp [toBatches]
  | [_] => by simp [toBatches]
  | [_, _] => by simp [toBatches]
  | [_, _, _] => by simp [toBatches]
  | [_, _, _, _] => by simp [toBatches]
  | [_, _, _, _, _] => by simp [toBatches]

theorem perFilePercents_append (l₁ l₂ : List Event) :
    perFilePercents (l₁ ++ l₂) = perFilePercents l₁ ++ perFilePercents l₂ :=
  List.filterMap_append l₁ l₂ _

theorem corePercents_append (l₁ l₂ : List Event) :
    corePercents (l₁ ++ l₂) = corePercents l₁ ++ corePercents l₂ :=
  List.filterMap_append l₁ l₂ _

theorem expectedSuccesses_append (put : String → String → StoredInfo) (paths : List String)
    (l₁ l₂ : List UFile) (off : Nat) :
    expectedSuccesses put paths off (l₁ ++ l₂) =
      expectedSuccesses put paths off l₁ ++ expectedSuccesses put paths (off + l₁.length) l₂ := by
  simp [expectedSuccesses, List.enumFrom_append, List.filterMap_append]

theorem expectedFailures_append (l₁ l₂ : List UFile) :
    expectedFailures (l₁ ++ l₂) = expectedFailures l₁ ++ expectedFailures l₂ := by
  simp [expectedFailures, List.filterMap_append]

theorem filterMap_enumFrom_snd (h : α → Option β) (n : Nat) (l : List α) :
    (l.enumFrom n).filterMap (fun p => h p.2) = l.filterMap h := by
  conv_rhs => rw [← List.enumFrom_map_snd n l]
  rw [List.filterMap_map]
  rfl

theorem perFilePercents_perFile_map (g : Nat → Nat) (l : List Nat) :
    perFilePercents (l.map fun j => Event.progress .perFile (g j)) = l.map g := by
  induction l with
  | nil => rfl
  | cons a t ih => simp [perFilePercents] at ih ⊢; exact ih

/-- Unfolding of the success list of one loop iteration. -/
theorem uploadBatchesGo_cons_results (put : String → String → StoredInfo) (n : Nat)
    (client : Bool) (paths : List String) (batch : List UFile) (rest : List (List UFile))
    (bs : Nat) :
    (uploadBatchesGo put n client paths (batch :: rest) bs).1 =
      ((batch.enumFrom bs).map fun p =>
          upload_single_file put p.2 (paths.getD p.1 "")).filterMap (fun o =>
            match o with | .success d _ => some d | .failure _ _ => none) ++
        (uploadBatchesGo put n client paths rest (bs + batch.length)).1 := rfl

/-- Unfolding of the error list of one loop iteration. -/
theorem uploadBatchesGo_cons_errors (put : String → String → StoredInfo) (n : Nat)
    (client : Bool) (paths : List String) (batch : List UFile) (rest : List (List UFile))
    (bs : Nat) :
    (uploadBatchesGo put n client paths (batch :: rest) bs).2.1 =
      ((batch.enumFrom bs).map fun p =>
          upload_single_file put p.2 (paths.getD p.1 "")).filterMap (fun o =>
            match o with | .failure d _ => some d | .success _ _ => none) ++
        (uploadBatchesGo put n client paths rest (bs + batch.length)).2.1 := rfl

/-- Unfolding of the event list of one loop iteration. -/
theorem uploadBatchesGo_cons_events (put : String → String → StoredInfo) (n : Nat)
    (client : Bool) (paths : List String) (batch : List UFile) (rest : List (List UFile))
    (bs : Nat) :
    (uploadBatchesGo put n client paths (batch :: rest) bs).2.2 =
      ((if client then [Event.progress .batchStart (batchStartPercent n bs)] else []) ++
       (if client ∧ batch ≠ [] then
          [Event.progress .batchUploading (batchUploadingPercent n bs)] else [])) ++
      (if client then
        (List.range ((batch.enumFrom bs).map fun p =>
          upload_single_file put p.2 (paths.getD p.1 "")).length).map fun j =>
            Event.progress .perFile (filePercent n (bs + j + 1))
      else []) ++
      (uploadBatchesGo put n client paths rest (bs + batch.length)).2.2 := rfl

/-- Invariant of the batch loop: flattened over the batches, the loop
collects exactly one success entry per ok file and one failure entry per
failing file, in input order, and (with a channel) one per-file progress
event per file at the floored completed-count percentage. -/
theorem uploadBatchesGo_spec (put : String → String → StoredInfo) (n : Nat) (client : Bool)
    (paths : List String) (batches : List (List UFile)) :
    ∀ bs : Nat,
      (uploadBatchesGo put n client paths batches bs).1 =
          expectedSuccesses put paths bs batches.flatten ∧
        (uploadBatchesGo put n client paths batches bs).2.1 =
          expectedFailures batches.flatten ∧
        perFilePercents (uploadBatchesGo put n client paths batches bs).2.2 =
          (if client then
            (List.range batches.flatten.length).map fun j => filePercent n (bs + j + 1)
          else []) := by
  induction batches with
  | nil =>
    intro bs
    simp [uploadBatchesGo, expectedSuccesses, expectedFailures, perFilePercents]
  | cons batch rest ih =>
    intro bs
    obtain ⟨ih1, ih2, ih3⟩ := ih (bs + batch.length)
    have houtlen : ((batch.enumFrom bs).map fun p =>
        upload_single_file put p.2 (paths.getD p.1 "")).length = batch.length := by
      simp [List.enumFrom_length]
    refine ⟨?_, ?_, ?_⟩
    · rw [uploadBatchesGo_cons_results, List.filterMap_map, ih1, List.flatten_cons,
        expectedSuccesses_append]
      congr 1
      simp only [expectedSuccesses]
      apply List.filterMap_congr
      intro p _
      cases h : p.2.ok <;> simp [Function.comp, upload_single_file, h]
    · rw [uploadBatchesGo_cons_errors, List.filterMap_map, ih2, List.flatten_cons,
        expectedFailures_append]
      congr 1
      have hsnd := filterMap_enumFrom_snd
        (fun f => if f.ok then none
                  else some ({ file := lastSeg f.filename, error := f.err } : ErrInfo)) bs batch
      rw [expectedFailures, ← hsnd]
      apply List.filterMap_congr
      intro p _
      cases h : p.2.ok <;> simp [Function.comp, upload_single_file, h]
    · rw [uploadBatchesGo_cons_events, perFilePercents_append, perFilePercents_append, ih3,
        houtlen]
      have hstart : perFilePercents
          ((if client then [Event.progress .batchStart (batchStartPercent n bs)] else []) ++
           (if client ∧ batch ≠ [] then
              [Event.progress .batchUploading (batchUploadingPercent n bs)] else [])) = [] := by
        cases client <;> by_cases hb : batch = [] <;> simp [perFilePercents, hb]
      rw [hstart]
      cases client with
      | false => simp [perFilePercents]
      | true =>
        simp only [reduceIte, List.nil_append]
        rw [perFilePercents_perFile_map, List.flatten_cons, List.length_append, List.range_add,
          List.map_append, List.map_map]
        refine congrArg₂ (· ++ ·) rfl ?_
        apply List.map_congr_left
        intro j _
        show filePercent n (bs + batch.length + j + 1) = filePercent n (bs + (batch.length + j) + 1)
        congr 1
        omega

/-- Characterization of a whole batch-upload call: result lists and
per-file progress percentages. -/
theorem upload_multiple_files_spec (put : String → String → StoredInfo) (files : List UFile)
    (paths : List String) (client : Bool) :
    (upload_multiple_files put files paths client).1.results =
        expectedSuccesses put paths 0 files ∧
      (upload_multiple_files put files paths client).1.errors = expectedFailures files ∧
      perFilePercents (upload_multiple_files put files paths client).2 =
        (if client then
          (List.range files.length).map fun j => filePercent files.length (j + 1)
        else []) := by
  obtain ⟨h1, h2, h3⟩ := uploadBatchesGo_spec put files.length client paths (toBatches files) 0
  rw [toBatches_flatten] at h1 h2 h3
  refine ⟨h1, h2, ?_⟩
  have hsplit : (upload_multiple_files put files paths client).2 =
      (if client then [Event.progress .initial 1] else []) ++
        (uploadBatchesGo put files.length client paths (toBatches files) 0).2.2 ++
        (if client then [Event.progress .summary 85] else []) := rfl
  rw [hsplit, perFilePercents_append, perFilePercents_append, h3]
  have hpre : perFilePercents (if client then [Event.progress .initial 1] else []) = [] := by
    cases client <;> simp [perFilePercents]
  have hpost : perFilePercents (if client then [Event.progress .summary 85] else []) = [] := by
    cases client <;> simp [perFilePercents]
  rw [hpre, hpost]
  cases client <;> simp

/-! ## C2 — local DeleteFile of an absent path -/

/-- C2: the claim says the local backend's NotFound for an absent delete
target is surfaced as a client error (HTTP 404). The code does raise the
404, but its own blanket `except Exception` catches it and re-raises HTTP
500, so the caller sees a server error. This theorem evaluates the code
at the failing input. -/
theorem C2_local_delete_absent_file_yields_500 :
    local_delete_file { files := [], dirs := [] } "missing.txt" =
      .error { status_code := 500, detail := "Error deleting file: 404: File not found" } := by
  rfl

/-! ## C3 — DeleteFolder on an empty prefix / missing directory -/

/-- C3 counterexample: the claim says the remote backend's DeleteFolder
fails with NotFound when no object lives under the prefix. On an empty
bucket the code skips the delete (the listing has no `Contents`) and
returns success — no error of any kind. -/
theorem C3_counterexample_remote_empty_delete_folder_succeeds :
    s3_delete_folder [] "some/folder" = .ok [] := by
  rfl

/-- C3 amended: the remote backend treats an empty prefix listing as
success (it deletes nothing and raises nothing), while the local backend
does fail for a missing directory — but its inner 404 is wrapped by the
blanket exception handler into a 500 server error. -/
theorem C3_amended_delete_folder_behaviour (objects : List S3Object) (fs : LocalFS)
    (p q : String)
    (hp : ∀ o ∈ objects, pyStartsWith o.key (normalize_path p ++ "/") = false)
    (hq : normalize_path q ∉ fs.dirs) :
    s3_delete_folder objects p = .ok objects ∧
    local_delete_folder fs q =
      .error { status_code := 500, detail := "Error deleting folder: 404: Folder not found" } := by
  constructor
  · have hc : objects.filter (fun o => pyStartsWith o.key (normalize_path p ++ "/")) = [] := by
      rw [List.filter_eq_nil_iff]
      intro o ho
      simp [hp o ho]
    simp [s3_delete_folder, hc]
  · have hc : ¬ (fs.dirs.contains (normalize_path q) = true) := by
      simpa using hq
    simp only [local_delete_folder]
    rw [if_neg hc]
    rfl

/-- Witness for C3 amended at a concrete bucket and a concrete local
disk. -/
theorem C3_amended_witness :
    s3_delete_folder [{ key := "other/file.txt", size := 3, lastModified := "t", slugMeta := none }]
        "ghost" =
      .ok [{ key := "other/file.txt", size := 3, lastModified := "t", slugMeta := none }] ∧
    local_delete_folder { files := ["a/x.txt"], dirs := ["a"] } "ghost" =
      .error { status_code := 500, detail := "Error deleting folder: 404: Folder not found" } :=
  C3_amended_delete_folder_behaviour
    [{ key := "other/file.txt", size := 3, lastModified := "t", slugMeta := none }]
    { files := ["a/x.txt"], dirs := ["a"] } "ghost" "ghost" (by decide) (by decide)

/-! ## C5 — cache invalidation after mutating calls -/

/-- C5 counterexample: the claim says the whole-backend listing cache key
is invalidated after every mutating backend call. The delete-file route
performs no cache call at all: starting from a cache holding the
whole-backend key, the key is still present after the route deletes an
existing file. -/
theorem C5_counterexample_delete_leaves_cache_key :
    ((route_delete_file
        { objects := [{ key := "a.txt", size := 1, lastModified := "t", slugMeta := none }]
          cache := [(cache_key "bucket" none, "stale-listing")] } "a.txt").1).cache
      = [(cache_key "bucket" none, "stale-listing")] := by
  rfl

/-- C5 amended: no route invalidates the listing cache
(`invalidate_list_cache` has no caller), and mutating routes leave the
cache untouched; an immediately following listing is nevertheless never
stale, because the listing route always reads the backend directly and
never consults the listing cache. -/
theorem C5_amended_no_invalidation_but_listing_fresh (st : AppState) (p : String) :
    ((route_delete_file st p).1).cache = st.cache ∧
    route_structure_listing (route_delete_file st p).1 =
      s3_list_objects (s3_delete_file st.objects p) :=
  ⟨rfl, rfl⟩

/-! ## C4 — per-file progress: truncating division, not round-to-nearest -/

/-- C4 counterexample: with 3 files on a channel, the second settled file
emits `max(2, int(2/3*85)) = 56`, while the claim's round-to-nearest
formula gives 57. -/
theorem C4_counterexample_floor_vs_round :
    perFilePercents (upload_multiple_files s3_upload_file
        [{ filename := "a", ok := true, err := "" }, { filename := "b", ok := true, err := "" },
         { filename := "c", ok := true, err := "" }] ["p", "p", "p"] true).2 = [28, 56, 85] ∧
      [claimedRoundPercent 3 1, claimedRoundPercent 3 2, claimedRoundPercent 3 3] =
        [28, 57, 85] := by
  decide

/-- C4 amended: after the j-th settled file (1-based) of a batch of N on a
channel, the emitted percentage is `max(2, floor(j * 85 / N))` —
truncating division (Python `int`), not rounding to nearest. -/
theorem C4_amended_per_file_percent_is_floor (put : String → String → StoredInfo)
    (files : List UFile) (paths : List String) :
    perFilePercents (upload_multiple_files put files paths true).2 =
      (List.range files.length).map fun j => max 2 ((j + 1) * 85 / files.length) := by
  have h := (upload_multiple_files_spec put files paths true).2.2
  simpa [filePercent] using h

/-! ## C10 — the result partitions the input -/

theorem expected_length_partition (put : String → String → StoredInfo) (paths : List String) :
    ∀ (files : List UFile) (off : Nat),
      (expectedSuccesses put paths off files).length + (expectedFailures files).length =
        files.length
  | [], _ => rfl
  | f :: rest, off => by
    have ih := expected_length_partition put paths rest (off + 1)
    cases h : f.ok <;>
      simp [expectedSuccesses, expectedFailures, List.enumFrom_cons, h] at ih ⊢ <;>
      omega

/-- C10: every batch upload partitions its input — `success + failed = N`,
the success list holds exactly the ok files' backend records in input
order, and the failure list exactly the failing files' entries in input
order. -/
theorem C10_result_partitions_input (put : String → String → StoredInfo) (files : List UFile)
    (paths : List String) (client : Bool) :
    (upload_multiple_files put files paths client).1.success +
        (upload_multiple_files put files paths client).1.failed = files.length ∧
      (upload_multiple_files put files paths client).1.results =
        expectedSuccesses put paths 0 files ∧
      (upload_multiple_files put files paths client).1.errors = expectedFailures files := by
  obtain ⟨h1, h2, _⟩ := upload_multiple_files_spec put files paths client
  refine ⟨?_, h1, h2⟩
  have hs : (upload_multiple_files put files paths client).1.success =
      (upload_multiple_files put files paths client).1.results.length := rfl
  have hf : (upload_multiple_files put files paths client).1.failed =
      (upload_multiple_files put files paths client).1.errors.length := rfl
  rw [hs, hf, h1, h2]
  exact expected_length_partition put paths files 0

/-! ## C6 — batch of 7 with exactly the third file failing -/

/-- A batch of seven files in which exactly the third fails. -/
def sevenFilesThirdFails (n1 n2 n3 n4 n5 n6 n7 e3 : String) : List UFile :=
  [{ filename := n1, ok := true, err := "" }, { filename := n2, ok := true, err := "" },
   { filename := n3, ok := false, err := e3 }, { filename := n4, ok := true, err := "" },
   { filename := n5, ok := true, err := "" }, { filename := n6, ok := true, err := "" },
   { filename := n7, ok := true, err := "" }]

/-- C6: a batch of 7 files where exactly file #3 fails returns 6
successes and 1 failure naming file #3's (stripped) name; the batch call
is a total function in the model — per-file exceptions are caught inside
`upload_single_file`, so the call itself never raises. -/
theorem C6_seven_files_third_fails (put : String → String → StoredInfo)
    (n1 n2 n3 n4 n5 n6 n7 e3 : String) (paths : List String) :
    (upload_multiple_files put (sevenFilesThirdFails n1 n2 n3 n4 n5 n6 n7 e3)
        paths true).1.success = 6 ∧
      (upload_multiple_files put (sevenFilesThirdFails n1 n2 n3 n4 n5 n6 n7 e3)
          paths true).1.failed = 1 ∧
      (upload_multiple_files put (sevenFilesThirdFails n1 n2 n3 n4 n5 n6 n7 e3)
          paths true).1.errors = [{ file := lastSeg n3, error := e3 }] := by
  obtain ⟨h1, h2, _⟩ :=
    upload_multiple_files_spec put (sevenFilesThirdFails n1 n2 n3 n4 n5 n6 n7 e3) paths true
  refine ⟨?_, ?_, ?_⟩
  · show (upload_multiple_files put (sevenFilesThirdFails n1 n2 n3 n4 n5 n6 n7 e3)
        paths true).1.results.length = 6
    rw [h1]
    simp [sevenFilesThirdFails, expectedSuccesses, List.enumFrom_cons]
  · show (upload_multiple_files put (sevenFilesThirdFails n1 n2 n3 n4 n5 n6 n7 e3)
        paths true).1.errors.length = 1
    rw [h2]
    simp [sevenFilesThirdFails, expectedFailures]
  · rw [h2]
    simp [sevenFilesThirdFails, expectedFailures]

/-! ## C7 — nested original filenames are stripped to the last segment -/

/-- C7: uploading a file whose original name embeds path segments stores
it under the destination folder with only the final segment as filename:
the orchestrator strips the name to its last `/`-segment and the backend
joins it onto the normalized destination folder. -/
theorem C7_nested_filename_stored_as_last_segment (f : UFile) (folder : String)
    (hok : f.ok = true) (hfolder : normalize_path folder ≠ "") :
    upload_single_file s3_upload_file f folder =
      .success
        { filename := lastSeg f.filename
          path := normalize_path folder ++ "/" ++ lastSeg f.filename
          slug := generate_slug (pyStem (lastSeg f.filename)) ++ pySuffix (lastSeg f.filename)
          folder := normalize_path folder
          storage := "s3" }
        (lastSeg f.filename) := by
  simp [upload_single_file, hok, s3_upload_file, hfolder]

/-- Witness for C7 at the spec's own example `"sub/dir/report.pdf"`. -/
theorem C7_witness :
    upload_single_file s3_upload_file { filename := "sub/dir/report.pdf", ok := true, err := "" }
        "projects/x" =
      .success
        { filename := "report.pdf", path := "projects/x/report.pdf", slug := "report.pdf",
          folder := "projects/x", storage := "s3" }
        "report.pdf" := by
  have h := C7_nested_filename_stored_as_last_segment
    { filename := "sub/dir/report.pdf", ok := true, err := "" } "projects/x" rfl (by decide)
  exact h.trans (by decide)

/-! ## C9 — folder provisioning progress and failure propagation -/

/-- The provisioning loop when every creation succeeds: one progress
event per folder at `sp + floor(i * prange / n)`, and the loop reports
success. -/
theorem createFoldersGo_all_ok (sp prange n : Nat) (ok : Nat → Bool) :
    ∀ (l : List String) (idx : Nat),
      (∀ i, idx ≤ i → i < idx + l.length → ok i = true) →
      createFoldersGo true sp prange n ok idx l =
        ((List.range l.length).map fun j =>
          Event.progress .provision (sp + (idx + j) * prange / n), true)
  | [], idx => by
    intro _
    simp [createFoldersGo]
  | s :: rest, idx => by
    intro hall
    have hok : ok idx = true := hall idx (Nat.le_refl idx) (by simp)
    have ih := createFoldersGo_all_ok sp prange n ok rest (idx + 1)
      (by intro i h1 h2
          exact hall i (by omega) (by simp only [List.length_cons]; omega))
    simp only [createFoldersGo, hok, if_true, ih]
    refine congrArg₂ Prod.mk ?_ rfl
    rw [List.length_cons, List.range_succ_eq_map, List.map_cons, List.map_map,
      List.singleton_append]
    refine congrArg₂ List.cons (by simp) ?_
    apply List.map_congr_left
    intro j _
    show Event.progress .provision (sp + (idx + 1 + j) * prange / n) =
      Event.progress .provision (sp + (idx + (j + 1)) * prange / n)
    have harg : idx + 1 + j = idx + (j + 1) := by omega
    rw [harg]

/-- The provisioning loop when creation `k` (0-based) is the first to
fail: the progress events for folders `0..k` are emitted, the loop stops
and reports failure. -/
theorem createFoldersGo_first_fail (sp prange n : Nat) (ok : Nat → Bool) :
    ∀ (l : List String) (idx k : Nat), k < l.length →
      (∀ i, idx ≤ i → i < idx + k → ok i = true) → ok (idx + k) = false →
      createFoldersGo true sp prange n ok idx l =
        ((List.range (k + 1)).map fun j =>
          Event.progress .provision (sp + (idx + j) * prange / n), false)
  | [], idx, k => by
    intro hk _ _
    exact absurd hk (by simp)
  | s :: rest, idx, k => by
    intro hk hpre hfail
    cases k with
    | zero =>
      have hok : ok idx = false := by simpa using hfail
      simp [createFoldersGo, hok]
      rfl
    | succ k =>
      have hok : ok idx = true := hpre idx (Nat.le_refl idx) (by omega)
      have ih := createFoldersGo_first_fail sp prange n ok rest (idx + 1) k
        (by simpa using hk) (by intro i h1 h2; exact hpre i (by omega) (by omega))
        (by have harg : idx + 1 + k = idx + (k + 1) := by omega
            rw [harg]; exact hfail)
      simp only [createFoldersGo, hok, if_true, ih]
      refine congrArg₂ Prod.mk ?_ rfl
      conv_rhs => rw [List.range_succ_eq_map, List.map_cons, List.map_map]
      rw [List.singleton_append]
      refine congrArg₂ List.cons (by simp) ?_
      apply List.map_congr_left
      intro j _
      show Event.progress .provision (sp + (idx + 1 + j) * prange / n) =
        Event.progress .provision (sp + (idx + (j + 1)) * prange / n)
      have harg : idx + 1 + j = idx + (j + 1) := by omega
      rw [harg]

/-- C9: provisioning over the template for a project, with a channel and
progress range `[sp, ep]` (the source is called with `sp ≤ ep`): before
creating folder `i` of `N` the emitted progress is
`sp + floor(i * (ep - sp) / N)`; when every creation succeeds the run
ends with a final event at exactly `ep` and reports success; when
creation `k` is the first to fail, the run stops there (events only for
folders `0..k`) and reports the failure to its caller. -/
theorem C9_provisioning_progress (project : String) (sp ep : Nat) (ok : Nat → Bool)
    (_hsp : sp ≤ ep) :
    ((∀ i, i < (folders_to_create project).length → ok i = true) →
      create_processed_folder_structure project true sp ep ok =
        ((List.range (folders_to_create project).length).map (fun i =>
            Event.progress .provision (sp + i * (ep - sp) / (folders_to_create project).length)) ++
          [Event.progress .provisionFinal ep], true)) ∧
    (∀ k, k < (folders_to_create project).length → (∀ i, i < k → ok i = true) →
      ok k = false →
      create_processed_folder_structure project true sp ep ok =
        ((List.range (k + 1)).map (fun i =>
            Event.progress .provision (sp + i * (ep - sp) / (folders_to_create project).length)),
         false)) := by
  constructor
  · intro hall
    have hgo := createFoldersGo_all_ok sp (ep - sp) (folders_to_create project).length ok
      (folders_to_create project) 0 (by intro i h1 h2; exact hall i (by omega))
    simp only [create_processed_folder_structure, hgo]
    simp
  · intro k hk hpre hfail
    have hgo := createFoldersGo_first_fail sp (ep - sp) (folders_to_create project).length ok
      (folders_to_create project) 0 k hk (by intro i h1 h2; exact hpre i (by omega))
      (by simpa using hfail)
    simp only [create_processed_folder_structure, hgo]
    simp

/-- Witness for C9: the hook's actual range 86-100 over the fixed
ten-entry template, once with all creations succeeding and once with the
fourth creation failing. -/
theorem C9_provisioning_witness :
    create_processed_folder_structure "P" true 86 100 (fun _ => true) =
      ((List.range 10).map (fun i => Event.progress .provision (86 + i * 14 / 10)) ++
        [Event.progress .provisionFinal 100], true) ∧
    create_processed_folder_structure "P" true 86 100 (fun i => decide (i < 3)) =
      ((List.range 4).map (fun i => Event.progress .provision (86 + i * 14 / 10)), false) := by
  constructor
  · have h := (C9_provisioning_progress "P" 86 100 (fun _ => true) (by decide)).1
      (by intro i _; rfl)
    exact h.trans (by decide)
  · have h := (C9_provisioning_progress "P" 86 100 (fun i => decide (i < 3)) (by decide)).2
      3 (by decide) (by intro i hi; exact decide_eq_true hi) (by decide)
    exact h.trans (by decide)

/-! ## C8 — implicit folders on the object store

Python's `'/'.join` and `split('/')` are mutually inverse on nonempty
lists of slash-free segments; with that, the prefix keys inserted by the
listing loop are exactly the joined take-prefixes of a file key's
segments. -/

theorem mk_toList (s : String) : String.mk s.toList = s := rfl

theorem pySplitChars_no_slash (p : List Char) :
    ∀ cur : List Char, '/' ∉ p → pySplitChars cur p = [cur.reverse ++ p] := by
  induction p with
  | nil =>
    intro cur _
    simp [pySplitChars]
  | cons c rest ih =>
    intro cur hns
    have hc : ¬ c = '/' := fun h => hns (by simp [h])
    simp only [pySplitChars, if_neg hc]
    rw [ih (c :: cur) fun h => hns (List.mem_cons_of_mem _ h)]
    simp

theorem pySplitChars_cut (p : List Char) (t : List Char) :
    ∀ cur, '/' ∉ p →
      pySplitChars cur (p ++ '/' :: t) = (cur.reverse ++ p) :: pySplitChars [] t := by
  induction p with
  | nil =>
    intro cur _
    simp [pySplitChars]
  | cons c rest ih =>
    intro cur hns
    have hc : ¬ c = '/' := fun h => hns (by simp [h])
    show pySplitChars cur (c :: (rest ++ '/' :: t)) = _
    rw [show pySplitChars cur (c :: (rest ++ '/' :: t)) =
        if c = '/' then cur.reverse :: pySplitChars [] (rest ++ '/' :: t)
        else pySplitChars (c :: cur) (rest ++ '/' :: t) from rfl,
      if_neg hc, ih (c :: cur) fun h => hns (List.mem_cons_of_mem _ h)]
    simp

theorem pySplitChars_join (parts : List (List Char)) :
    parts ≠ [] → (∀ p ∈ parts, '/' ∉ p) →
      pySplitChars [] (pyJoinChars parts) = parts := by
  induction parts with
  | nil => intro hne _; cases hne rfl
  | cons p rest ih =>
    intro _ hns
    cases rest with
    | nil => simpa [pyJoinChars] using pySplitChars_no_slash p [] (hns p (by simp))
    | cons q rest2 =>
      rw [show pyJoinChars (p :: q :: rest2) = p ++ '/' :: pyJoinChars (q :: rest2) from rfl,
        pySplitChars_cut p _ [] (hns p (by simp))]
      exact congrArg₂ List.cons rfl
        (ih (by simp) fun r hr => hns r (List.mem_cons_of_mem _ hr))

/-- Round trip: `'/'.join(parts).split('/') == parts` for a nonempty list
of slash-free segments. -/
theorem pySplit_pyJoin (parts : List String) (hne : parts ≠ [])
    (hns : ∀ p ∈ parts, '/' ∉ p.toList) :
    pySplit (pyJoin parts) = parts := by
  unfold pySplit pyJoin
  rw [show (String.mk (pyJoinChars (parts.map String.toList))).toList =
      pyJoinChars (parts.map String.toList) from rfl]
  rw [pySplitChars_join (parts.map String.toList) (by simpa using hne) ?hns2]
  case hns2 =>
    intro p hp
    obtain ⟨s, hs, rfl⟩ := List.mem_map.mp hp
    exact hns s hs
  rw [List.map_map]
  have : (String.mk ∘ String.toList) = id (α := String) := by
    funext s
    exact mk_toList s
  rw [this, List.map_id]

theorem pySplitChars_mem_no_slash (l : List Char) :
    ∀ cur p, '/' ∉ cur → p ∈ pySplitChars cur l → '/' ∉ p := by
  induction l with
  | nil =>
    intro cur p hcur hp
    simp [pySplitChars] at hp
    subst hp
    simpa using hcur
  | cons c rest ih =>
    intro cur p hcur hp
    by_cases hc : c = '/'
    · subst hc
      rw [show pySplitChars cur ('/' :: rest) =
          cur.reverse :: pySplitChars [] rest from rfl] at hp
      rcases List.mem_cons.mp hp with h | h
      · subst h; simpa using hcur
      · exact ih [] p (by simp) h
    · simp only [pySplitChars, if_neg hc] at hp
      refine ih (c :: cur) p ?_ hp
      intro h
      rcases List.mem_cons.mp h with h1 | h1
      · exact hc h1.symm
      · exact hcur h1

/-- Every segment produced by `split('/')` is slash-free. -/
theorem pySplit_mem_no_slash (s p : String) (hp : p ∈ pySplit s) : '/' ∉ p.toList := by
  unfold pySplit at hp
  obtain ⟨l, hl, rfl⟩ := List.mem_map.mp hp
  exact pySplitChars_mem_no_slash s.toList [] l (by simp) hl

theorem pyJoin_ne_empty (l : List String) (hne : l ≠ []) (hns : ∀ p ∈ l, p ≠ "") :
    pyJoin l ≠ "" := by
  match l, hne with
  | [p], _ =>
    have : pyJoin [p] = p := by
      unfold pyJoin
      simp [pyJoinChars, mk_toList]
    rw [this]
    exact hns p (by simp)
  | p :: q :: rest, _ =>
    intro h
    have hdata : p.toList ++ '/' :: pyJoinChars (List.map String.toList (q :: rest)) =
        ([] : List Char) :=
      congrArg String.toList h
    simpa using congrArg List.length hdata

theorem mem_foldl_insert (f : Nat → String) :
    ∀ (is : List Nat) (s0 : Finset String) (x : String),
      (x ∈ s0 ∨ ∃ i ∈ is, x = f i) →
      x ∈ is.foldl (fun s i => insert (f i) s) s0 := by
  intro is
  induction is with
  | nil =>
    intro s0 x hx
    rcases hx with h | ⟨i, hi, _⟩
    · exact h
    · cases hi
  | cons a t ih =>
    intro s0 x hx
    rcases hx with h | ⟨i, hi, hxi⟩
    · exact ih _ x (Or.inl (Finset.mem_insert_of_mem h))
    · rcases List.mem_cons.mp hi with rfl | h2
      · exact ih _ x (Or.inl (by simp [hxi]))
      · exact ih _ x (Or.inr ⟨i, h2, hxi⟩)

theorem subset_foldl_insert (f : Nat → String) :
    ∀ (is : List Nat) (s0 : Finset String) (x : String),
      x ∈ s0 → x ∈ is.foldl (fun s i => insert (f i) s) s0 :=
  fun is s0 x hx => mem_foldl_insert f is s0 x (Or.inl hx)

/-- One listing step never drops folders already collected. -/
theorem s3_list_step_mono (acc : S3ListResult) (obj : S3Object) (x : String)
    (hx : x ∈ acc.folders_set) : x ∈ (s3_list_step acc obj).folders_set := by
  unfold s3_list_step
  by_cases he : pyEndsWith obj.key "/" = true
  · simp only [he, if_true]
    exact Finset.mem_insert_of_mem hx
  · simp only [he, if_false, Bool.false_eq_true]
    by_cases hfp : (if 1 < (pySplit obj.key).length
        then pyJoin (pySplit obj.key).dropLast else "") ≠ ""
    · simp only [if_pos hfp]
      exact subset_foldl_insert _ _ _ x hx
    · simp only [if_neg hfp]
      exact hx

theorem s3_list_foldl_mono (objects : List S3Object) :
    ∀ (acc : S3ListResult) (x : String), x ∈ acc.folders_set →
      x ∈ (objects.foldl s3_list_step acc).folders_set := by
  induction objects with
  | nil => intro acc x hx; exact hx
  | cons o rest ih =>
    intro acc x hx
    exact ih _ x (s3_list_step_mono acc o x hx)

/-- Processing a file key inserts every joined proper segment prefix of
the key into the folder set. -/
theorem s3_list_step_prefix_mem (acc : S3ListResult) (obj : S3Object)
    (hend : pyEndsWith obj.key "/" = false)
    (hseg : ∀ s ∈ pySplit obj.key, s ≠ "")
    (j : Nat) (hj1 : 1 ≤ j) (hj2 : j < (pySplit obj.key).length) :
    pyJoin ((pySplit obj.key).take j) ∈ (s3_list_step acc obj).folders_set := by
  have hlen2 : 2 ≤ (pySplit obj.key).length := by omega
  have hdl_len : (pySplit obj.key).dropLast.length = (pySplit obj.key).length - 1 := by
    simp
  have hdl_ne : (pySplit obj.key).dropLast ≠ [] := by
    intro h
    rw [← List.length_eq_zero] at h
    omega
  have hdl_ns : ∀ p ∈ (pySplit obj.key).dropLast, '/' ∉ p.toList := fun p hp =>
    pySplit_mem_no_slash obj.key p (List.dropLast_subset _ hp)
  have hdl_nz : ∀ p ∈ (pySplit obj.key).dropLast, p ≠ "" := fun p hp =>
    hseg p (List.dropLast_subset _ hp)
  have hroundtrip : pySplit (pyJoin (pySplit obj.key).dropLast) =
      (pySplit obj.key).dropLast :=
    pySplit_pyJoin _ hdl_ne hdl_ns
  have hfp_ne : pyJoin (pySplit obj.key).dropLast ≠ "" :=
    pyJoin_ne_empty _ hdl_ne hdl_nz
  unfold s3_list_step
  rw [if_neg (by simp [hend])]
  dsimp only
  rw [if_pos (by omega : 1 < (pySplit obj.key).length)]
  rw [if_pos hfp_ne]
  rw [hroundtrip]
  apply mem_foldl_insert
  refine Or.inr ⟨j - 1, ?_, ?_⟩
  · rw [List.mem_range, hdl_len]
    omega
  · have hj : j - 1 + 1 = j := by omega
    rw [hj, List.dropLast_eq_take, List.take_take]
    have hmin : min j ((pySplit obj.key).length - 1) = j := by omega
    rw [hmin]

/-- Every proper segment prefix of every file key lands in the final
folder set. -/
theorem s3_list_objects_prefix_mem (objects : List S3Object) (o : S3Object)
    (hmem : o ∈ objects) (hend : pyEndsWith o.key "/" = false)
    (hseg : ∀ s ∈ pySplit o.key, s ≠ "")
    (j : Nat) (hj1 : 1 ≤ j) (hj2 : j < (pySplit o.key).length) :
    pyJoin ((pySplit o.key).take j) ∈ (s3_list_objects objects).folders_set := by
  unfold s3_list_objects
  suffices h : ∀ acc : S3ListResult,
      pyJoin ((pySplit o.key).take j) ∈ (objects.foldl s3_list_step acc).folders_set from
    h _
  induction objects with
  | nil => cases hmem
  | cons p rest ih =>
    intro acc
    rcases List.mem_cons.mp hmem with rfl | h2
    · exact s3_list_foldl_mono rest _ _
        (s3_list_step_prefix_mem acc o hend hseg j hj1 hj2)
    · exact ih h2 (s3_list_step acc p)

/-- C8: on the object store, listing a bucket whose only object is the
file `a/b/file.txt` (no folder markers) yields exactly one file item at
that path and the implicit-folder set `{"a", "a/b"}`; in general, every
proper segment prefix of every (slash-free-segmented) file key is
collected into the folder set. -/
theorem C8_listing_implicit_folders :
    s3_list_objects [{ key := "a/b/file.txt", size := 7, lastModified := "t", slugMeta := none }] =
      { items := [{ path := "a/b/file.txt", name := "file.txt", slug := "file", kind := .file,
                    folder := some "a/b", size := 7, lastModified := "t" }],
        folders_set := {"a", "a/b"} } ∧
    ∀ (objects : List S3Object) (o : S3Object), o ∈ objects →
      pyEndsWith o.key "/" = false →
      (∀ s ∈ pySplit o.key, s ≠ "") →
      ∀ j, 1 ≤ j → j < (pySplit o.key).length →
      pyJoin ((pySplit o.key).take j) ∈ (s3_list_objects objects).folders_set := by
  constructor
  · have hitems : (s3_list_objects
        [{ key := "a/b/file.txt", size := 7, lastModified := "t", slugMeta := none }]).items =
        [{ path := "a/b/file.txt", name := "file.txt", slug := "file", kind := .file,
           folder := some "a/b", size := 7, lastModified := "t" }] := by decide
    have hfs : (s3_list_objects
        [{ key := "a/b/file.txt", size := 7, lastModified := "t", slugMeta := none }]).folders_set =
        ({"a", "a/b"} : Finset String) := by
      have hval : (s3_list_objects
          [{ key := "a/b/file.txt", size := 7, lastModified := "t", slugMeta := none }]).folders_set =
          insert "a/b" (insert "a" (∅ : Finset String)) := rfl
      rw [hval]
      refine Finset.ext fun x => ?_
      simp [Finset.mem_insert, or_comm]
    calc s3_list_objects
          [{ key := "a/b/file.txt", size := 7, lastModified := "t", slugMeta := none }] =
        { items := (s3_list_objects
            [{ key := "a/b/file.txt", size := 7, lastModified := "t", slugMeta := none }]).items,
          folders_set := (s3_list_objects
            [{ key := "a/b/file.txt", size := 7, lastModified := "t", slugMeta := none }]).folders_set } := rfl
      _ = _ := by rw [hitems, hfs]
  · intro objects o hmem hend hseg j hj1 hj2
    exact s3_list_objects_prefix_mem objects o hmem hend hseg j hj1 hj2

/-- Witness for C8's general part at the concrete bucket of its concrete
part: the prefix `"a"` (here `j = 1`) of the key `a/b/file.txt` is in the
folder set. -/
theorem C8_listing_witness :
    pyJoin ((pySplit "a/b/file.txt").take 1) ∈
      (s3_list_objects
        [{ key := "a/b/file.txt", size := 7, lastModified := "t", slugMeta := none }]).folders_set :=
  C8_listing_implicit_folders.2
    [{ key := "a/b/file.txt", size := 7, lastModified := "t", slugMeta := none }]
    { key := "a/b/file.txt", size := 7, lastModified := "t", slugMeta := none }
    (by simp) (by decide) (by decide) 1 (by decide) (by decide)

/-! ## C1 — monotonicity of the emitted progress stream -/

theorem corePercents_of_only_perFile (l : List Event)
    (h : ∀ e ∈ l, ∃ p, e = Event.progress .perFile p) :
    corePercents l = perFilePercents l := by
  induction l with
  | nil => rfl
  | cons e t ih =>
    obtain ⟨p, rfl⟩ := h e (by simp)
    have ht := ih fun e2 h2 => h e2 (by simp [h2])
    simp only [corePercents, perFilePercents, List.filterMap_cons] at ht ⊢
    rw [ht]

/-- Inside the batch loop, the percentages that survive the core filter
are exactly the per-file ones. -/
theorem corePercents_uploadBatchesGo (put : String → String → StoredInfo) (n : Nat)
    (client : Bool) (paths : List String) (batches : List (List UFile)) :
    ∀ bs : Nat,
      corePercents (uploadBatchesGo put n client paths batches bs).2.2 =
        perFilePercents (uploadBatchesGo put n client paths batches bs).2.2 := by
  induction batches with
  | nil => intro bs; simp [uploadBatchesGo, corePercents, perFilePercents]
  | cons batch rest ih =>
    intro bs
    rw [uploadBatchesGo_cons_events, corePercents_append, corePercents_append,
      perFilePercents_append, perFilePercents_append, ih]
    have h1 : corePercents
        ((if client then [Event.progress .batchStart (batchStartPercent n bs)] else []) ++
         (if client ∧ batch ≠ [] then
            [Event.progress .batchUploading (batchUploadingPercent n bs)] else [])) = [] := by
      cases client <;> by_cases hb : batch = [] <;> simp [corePercents, hb]
    have h2 : perFilePercents
        ((if client then [Event.progress .batchStart (batchStartPercent n bs)] else []) ++
         (if client ∧ batch ≠ [] then
            [Event.progress .batchUploading (batchUploadingPercent n bs)] else [])) = [] := by
      cases client <;> by_cases hb : batch = [] <;> simp [perFilePercents, hb]
    rw [h1, h2]
    simp only [List.nil_append]
    congr 1
    cases client with
    | false => simp [corePercents, perFilePercents]
    | true =>
      simp only [reduceIte]
      apply corePercents_of_only_perFile
      intro e he
      obtain ⟨j, _, rfl⟩ := List.mem_map.mp he
      exact ⟨_, rfl⟩

/-- With a channel, the core progress stream of the whole upload call is
the initial 1%, the per-file percentages, then the 85% summary. -/
theorem corePercents_upload (put : String → String → StoredInfo) (files : List UFile)
    (paths : List String) :
    corePercents (upload_multiple_files put files paths true).2 =
      ([1] ++ (List.range files.length).map fun j => filePercent files.length (j + 1)) ++
        [85] := by
  have hsplit : (upload_multiple_files put files paths true).2 =
      [Event.progress .initial 1] ++
        (uploadBatchesGo put files.length true paths (toBatches files) 0).2.2 ++
        [Event.progress .summary 85] := rfl
  rw [hsplit, corePercents_append, corePercents_append, corePercents_uploadBatchesGo]
  have h3 := (uploadBatchesGo_spec put files.length true paths (toBatches files) 0).2.2
  rw [toBatches_flatten] at h3
  rw [h3]
  simp [corePercents]

theorem filePercent_mono (n : Nat) {a b : Nat} (h : a ≤ b) :
    filePercent n a ≤ filePercent n b :=
  max_le_max (Nat.le_refl 2) (Nat.div_le_div_right (Nat.mul_le_mul_right 85 h))

theorem filePercent_le_85 (n c : Nat) (hn : 0 < n) (hc : c ≤ n) : filePercent n c ≤ 85 := by
  unfold filePercent
  have h1 : c * 85 / n ≤ n * 85 / n := Nat.div_le_div_right (Nat.mul_le_mul_right 85 hc)
  have h2 : n * 85 / n = 85 := Nat.mul_div_cancel_left 85 hn
  omega

theorem two_le_filePercent (n c : Nat) : 2 ≤ filePercent n c := le_max_left 2 _

theorem chain'_perFile_map (n k : Nat) :
    List.Chain' (· ≤ ·) ((List.range k).map fun j => filePercent n (j + 1)) := by
  rw [List.chain'_map, List.chain'_iff_get]
  intro i h
  simp only [List.get_eq_getElem, List.getElem_range]
  exact filePercent_mono n (by omega)

theorem mem_perFile_map_bounds (n k : Nat) (hn : 0 < n) (hk : k ≤ n) (x : Nat)
    (hx : x ∈ (List.range k).map fun j => filePercent n (j + 1)) : 2 ≤ x ∧ x ≤ 85 := by
  obtain ⟨j, hj, rfl⟩ := List.mem_map.mp hx
  rw [List.mem_range] at hj
  exact ⟨two_le_filePercent n (j + 1), filePercent_le_85 n (j + 1) hn (by omega)⟩

/-- C1 counterexample: with 18 files on a channel the emitted progress
stream starts 1, 1, 5, 4, … — the speculative pre-batch uploading event
(percent 5) exceeds the first per-file percentage (4), so the stream is
not monotonically non-decreasing. -/
theorem C1_counterexample_progress_not_monotone :
    ¬ List.Chain' (· ≤ ·) (progressPercents
      (fullUploadFlow
        (fun _ _ => { filename := "", path := "", slug := "", folder := "", storage := "" })
        (List.replicate 18 { filename := "f", ok := true, err := "" }) [] true
        fun _ => true).2) := by
  have h : progressPercents
      (fullUploadFlow
        (fun _ _ => { filename := "", path := "", slug := "", folder := "", storage := "" })
        (List.replicate 18 { filename := "f", ok := true, err := "" }) [] true
        fun _ => true).2 =
      [1, 1, 5, 4, 9, 14, 18, 23, 23, 28, 28, 33, 37, 42, 47, 47, 52, 51, 56, 61, 66, 70,
       70, 75, 75, 80, 85, 85] := by
    decide
  rw [h]
  intro hch
  have h2 := List.chain'_iff_get.mp hch 2 (by simp)
  simp [List.get] at h2

/-- C1 amended: the batch-start and speculative pre-batch uploading
events can exceed later percentages, so the full stream is not monotone;
excluding exactly those two event kinds, the remaining progress stream
(initial, per-file, 85% summary, hook start, provisioning steps, final)
is monotonically non-decreasing and, when every upload hook condition
holds and every folder creation succeeds, terminates at exactly 100. -/
theorem C1_amended_core_progress_monotone (put : String → String → StoredInfo)
    (files : List UFile) (paths : List String) (ok : Nat → Bool)
    (hne : files ≠ [])
    (hok : ∀ i, ok i = true)
    (hsucc : 0 < (upload_multiple_files put files paths true).1.success)
    (hpaths : paths ≠ [])
    (hfp : normalize_path (paths.getD 0 "") ≠ "")
    (hroot : (pySplit (normalize_path (paths.getD 0 ""))).getD 0 "" ≠ "")
    (hparts : 2 ≤ (pySplit (normalize_path
        (((upload_multiple_files put files paths true).1.results.map StoredInfo.path).getD 0
          ""))).length)
    (hinv : (pySplit (normalize_path
        (((upload_multiple_files put files paths true).1.results.map StoredInfo.path).getD 0
          ""))).getD 0 "" = ROOT_INVITES) :
    List.Chain' (· ≤ ·) (corePercents (fullUploadFlow put files paths true ok).2) ∧
      (corePercents (fullUploadFlow put files paths true ok).2).getLast? = some 100 := by
  -- the flow is the upload events followed by the hook events
  have hflow : (fullUploadFlow put files paths true ok).2 =
      (upload_multiple_files put files paths true).2 ++
        (if 0 < (upload_multiple_files put files paths true).1.success then
          if (if (if paths ≠ [] then normalize_path (paths.getD 0 "") else "") ≠ "" then
                pySplit (if paths ≠ [] then normalize_path (paths.getD 0 "") else "")
              else []).getD 0 "" ≠ "" then
            on_folder_uploaded
              ((upload_multiple_files put files paths true).1.results.map fun r => r.path)
              true ok
          else []
        else []) := rfl
  rw [if_pos hpaths] at hflow
  rw [if_pos hfp] at hflow
  rw [if_pos hroot] at hflow
  rw [if_pos hsucc] at hflow
  -- the successes list is nonempty, so the hook sees a cons
  have hres_ne : (upload_multiple_files put files paths true).1.results ≠ [] := by
    intro h0
    rw [show (upload_multiple_files put files paths true).1.success =
        (upload_multiple_files put files paths true).1.results.length from rfl, h0] at hsucc
    simp at hsucc
  have hmap_ne : (upload_multiple_files put files paths true).1.results.map
      (fun r => r.path) ≠ [] := by
    intro h0
    exact hres_ne (List.map_eq_nil_iff.mp h0)
  obtain ⟨fp, tl, heq⟩ := List.exists_cons_of_ne_nil hmap_ne
  have hfp0 : ((upload_multiple_files put files paths true).1.results.map
      StoredInfo.path).getD 0 "" = fp := by
    rw [show ((upload_multiple_files put files paths true).1.results.map
      StoredInfo.path) = ((upload_multiple_files put files paths true).1.results.map
      fun r => r.path) from rfl, heq]
    rfl
  rw [hfp0] at hparts hinv
  -- the provisioning run over the fixed template with every creation ok
  have hlen : (folders_to_create ((pySplit (normalize_path fp)).getD 1 "")).length = 10 := by
    simp [folders_to_create, folder_structure_template]
  have hgo := createFoldersGo_all_ok 86 (100 - 86)
    (folders_to_create ((pySplit (normalize_path fp)).getD 1 "")).length ok
    (folders_to_create ((pySplit (normalize_path fp)).getD 1 "")) 0
    (by intro i _ _; exact hok i)
  have hcreate : create_processed_folder_structure
      ((pySplit (normalize_path fp)).getD 1 "") true 86 100 ok =
      ((List.range 10).map (fun i => Event.progress .provision (86 + i * 14 / 10)) ++
        [Event.progress .provisionFinal 100], true) := by
    simp only [create_processed_folder_structure, hgo]
    rw [hlen]
    simp
  have hofu : on_folder_uploaded (fp :: tl) true ok =
      (if 2 ≤ (pySplit (normalize_path fp)).length ∧
          (pySplit (normalize_path fp)).getD 0 "" = ROOT_INVITES then
        if (create_processed_folder_structure
            ((pySplit (normalize_path fp)).getD 1 "") true 86 100 ok).2 then
          [Event.progress .hookStart 86] ++
            (create_processed_folder_structure
              ((pySplit (normalize_path fp)).getD 1 "") true 86 100 ok).1 ++
            [Event.complete]
        else
          [Event.progress .hookStart 86] ++
            (create_processed_folder_structure
              ((pySplit (normalize_path fp)).getD 1 "") true 86 100 ok).1 ++
            [Event.error]
      else []) := rfl
  rw [hcreate] at hofu
  rw [if_pos ⟨hparts, hinv⟩] at hofu
  simp only [if_pos rfl] at hofu
  -- the core percentages of the hook part are concrete
  have hcoreHook : corePercents (on_folder_uploaded (fp :: tl) true ok) =
      [86, 86, 87, 88, 90, 91, 93, 94, 95, 97, 98, 100] := by
    rw [hofu]
    decide
  -- assemble
  rw [hflow, heq, corePercents_append, corePercents_upload, hcoreHook]
  have hn : 0 < files.length := List.length_pos.mpr hne
  constructor
  · refine List.chain'_append.mpr ⟨?_, ?_, ?_⟩
    · refine List.chain'_append.mpr ⟨?_, List.chain'_singleton 85, ?_⟩
      · refine List.chain'_append.mpr
          ⟨List.chain'_singleton 1, chain'_perFile_map files.length files.length, ?_⟩
        intro x hx y hy
        have hx1 : 1 = x := by simpa using hx
        have hy2 := (mem_perFile_map_bounds files.length files.length hn (Nat.le_refl _) y
          (List.mem_of_mem_head? hy)).1
        omega
      · intro x hx y hy
        have hy85 : 85 = y := by simpa using hy
        have hxm := List.mem_of_mem_getLast? hx
        rcases List.mem_append.mp hxm with hxa | hxa
        · have : x = 1 := by simpa using hxa
          omega
        · have := (mem_perFile_map_bounds files.length files.length hn (Nat.le_refl _) x
            hxa).2
          omega
    · simp [List.chain'_cons]
    · intro x hx y hy
      have hx85 : 85 = x := by
        rw [List.getLast?_append] at hx
        simpa using hx
      have hy86 : 86 = y := by simpa using hy
      omega
  · rw [List.getLast?_append]
    simp

/-- Witness for C1 amended: two files uploaded to
`accepted_invites/P/sub` on a channel, all creations succeeding. -/
theorem C1_amended_witness :
    List.Chain' (· ≤ ·) (corePercents (fullUploadFlow s3_upload_file
        [{ filename := "a.txt", ok := true, err := "" },
         { filename := "b.txt", ok := true, err := "" }]
        ["accepted_invites/P/sub", "accepted_invites/P/sub"] true fun _ => true).2) ∧
      (corePercents (fullUploadFlow s3_upload_file
        [{ filename := "a.txt", ok := true, err := "" },
         { filename := "b.txt", ok := true, err := "" }]
        ["accepted_invites/P/sub", "accepted_invites/P/sub"] true fun _ => true).2).getLast? =
        some 100 :=
  C1_amended_core_progress_monotone s3_upload_file
    [{ filename := "a.txt", ok := true, err := "" },
     { filename := "b.txt", ok := true, err := "" }]
    ["accepted_invites/P/sub", "accepted_invites/P/sub"] (fun _ => true)
    (by decide) (fun _ => rfl) (by decide) (by decide) (by decide) (by decide)
    (by decide) (by decide)

end Tumlinson
